import Mathlib

/-!
# patterns-operator: `controllers/kube.go`

A shallow embedding of the helper functions of `controllers/kube.go`
(`applyOneObject`, `haveNamespace`, `ownedBySame`, `ownedBy`,
`referSameObject`) together with the properties of them that the
specification of the repository states.

Conventions of the embedding

* Go `string` is Lean `String`; `len(s) == 0` is `s.length = 0`.
* A Go `error` value is a value of `Error`; the `nil` error is `none`.
* A Go interface value that may be `nil` is an `Option`.
* A `for _, r := range xs` loop with an early `return` is a structural
  recursion over the list `xs`.
* Calls that leave the process (the patch of the resource helper, the
  namespace lookup of the typed client) are fields of a store handle `Env`,
  threaded through an explicit store state; every call is appended to a log.
-/

namespace PatternsOperator

/-! ## Data model -/

/-- A Go `error` value, identified by its message. -/
structure Error where
  msg : String
deriving DecidableEq

/-- The fields of `metav1.OwnerReference` that `kube.go` reads or writes. -/
structure OwnerReference where
  APIVersion : String
  Kind : String
  Name : String
  UID : String
deriving DecidableEq

/-- The result type of `schema.ParseGroupVersion`. -/
structure GroupVersion where
  Group : String
  Version : String
deriving DecidableEq

/-- The part of the `metav1.Object` accessor interface used by `kube.go` and by
`resource.Info.Refresh`. -/
structure ObjectMeta where
  Name : String
  GenerateName : String
  Namespace : String
  ResourceVersion : String
  OwnerReferences : List OwnerReference
deriving DecidableEq

/-! ## Ownership resolver -/

/-- Modelled from the spec: `schema.ParseGroupVersion` is called by `referSameObject`
and lives in the library package `k8s.io/apimachinery/pkg/runtime/schema`, outside
`controllers/kube.go`.  The empty string and `"/"` give the empty
group and version; otherwise the number of `'/'` decides: none gives the empty
group with the whole string as version, one splits at it, more is an error. -/
def ParseGroupVersion (gv : String) : Except Error GroupVersion :=
  if gv.length = 0 ∨ gv = "/" then
    .ok { Group := "", Version := "" }
  else
    match gv.data.count '/' with
    | 0 => .ok { Group := "", Version := gv }
    | 1 =>
      let i := gv.data.indexOf '/'
      .ok { Group := String.mk (gv.data.take i), Version := String.mk (gv.data.drop (i + 1)) }
    | _ => .error { msg := "unexpected GroupVersion string: " ++ gv }

/-- Returns true if a and b point to the same object (`kube.go`, lines 126-139). -/
def referSameObject (a b : OwnerReference) : Bool :=
  match ParseGroupVersion a.APIVersion with
  | .error _ => false
  | .ok aGV =>
    match ParseGroupVersion b.APIVersion with
    | .error _ => false
    | .ok bGV => aGV.Group == bGV.Group && a.Kind == b.Kind && a.Name == b.Name

/-- The loop of `ownedBy` over `object.GetOwnerReferences()`. -/
def ownedByLoop (ref : OwnerReference) : List OwnerReference → Bool
  | [] => false
  | r :: rs => if referSameObject r ref then true else ownedByLoop ref rs

/-- The function `ownedBy` of `kube.go`, lines 104-115. -/
def ownedBy (object : ObjectMeta) (ref : OwnerReference) : Bool :=
  ownedByLoop ref object.OwnerReferences

/-- The loop of `ownedBySame` over `expected.GetOwnerReferences()`. -/
def ownedBySameLoop (object : ObjectMeta) : List OwnerReference → Bool
  | [] => true
  | r :: rs => if ownedBy object r == false then false else ownedBySameLoop object rs

/-- The function `ownedBySame` of `kube.go`, lines 93-102. -/
def ownedBySame (expected object : ObjectMeta) : Bool :=
  ownedBySameLoop object expected.OwnerReferences

/-- The group that `ParseGroupVersion` reads off an `APIVersion`, `none` when the
string does not parse. -/
def parsedGroup (gv : String) : Option String :=
  match ParseGroupVersion gv with
  | .ok g => some g.Group
  | .error _ => none

/-! ## Objects, the resource handle and the store -/

/-- A non-nil `runtime.Object`.  `metadata` is `none` for an object that exposes
no object metadata (a list type, a `metav1.Status`); `payload` stands for the
rest of the object. -/
structure ObjectData where
  metadata : Option ObjectMeta
  payload : String
deriving DecidableEq

/-- A `runtime.Object` interface value; `none` is the nil interface. -/
abbrev RuntimeObject := Option ObjectData

/-- The encoded form of an object. -/
abbrev Bytes := List Nat

/-- The fields of `resource.Info` that `applyOneObject` reads or that `Refresh`
writes.  `Client` is represented by the store handle; of `Mapping`, taken to be
non-nil, only the scope is kept: `Namespaced` says that it is the namespace scope. -/
structure Info where
  Namespaced : Bool
  Namespace : String
  Name : String
  Object : RuntimeObject
  ResourceVersion : String
deriving DecidableEq

/-- The patch types of `k8s.io/apimachinery/pkg/types`. -/
inductive PatchType where
  | JSONPatchType
  | MergePatchType
  | StrategicMergePatchType
  | ApplyPatchType
deriving DecidableEq

/-- The fields of `metav1.PatchOptions` set on the way to the store.  `Force` is a
pointer in Go, so an `Option`. -/
structure PatchOptions where
  DryRun : List String
  Force : Option Bool
  FieldManager : String
deriving DecidableEq

/-- The settings of a `resource.Helper` that the builder calls of
`applyOneObject` touch. -/
structure Helper where
  ServerDryRun : Bool
  FieldManager : String
deriving DecidableEq

/-- One patch request: a call of `(*resource.Helper).Patch`, given by the helper it
is made on and its five arguments.  Whether the helper passes it on to the store is
the helper's business: see `RefusesEmptyName`. -/
structure PatchRequest where
  Helper : Helper
  Namespace : String
  Name : String
  PatchType : PatchType
  Data : Bytes
  Options : PatchOptions
deriving DecidableEq

/-- What `applyOneObject` and `haveNamespace` do that is visible from outside,
in the order it happens. -/
inductive Event where
  | encode (obj : RuntimeObject)
  | patch (req : PatchRequest)
  | getNamespace (name : String)
deriving DecidableEq

/-- The store handle: the codec `runtime.Encode(unstructured.UnstructuredJSONScheme, _)`,
what a call of `(*resource.Helper).Patch` returns, and what the namespace lookup
`client.CoreV1().Namespaces().Get` returns.  `σ` is the state of the remote store,
which a call changes only by what it sends there. -/
structure Env (σ : Type) where
  encode : RuntimeObject → Except Error Bytes
  patch : σ → PatchRequest → Except Error RuntimeObject × σ
  getNamespace : σ → String → Except Error ObjectData × σ

/-- How a Go function call ends: it returns its `error` result (`none` is `nil`),
or the goroutine panics. -/
inductive Outcome where
  | returned (err : Option Error)
  | panicked (reason : String)
deriving DecidableEq

/-- Modelled from the spec: the constant `apply.FieldManagerClientSideApply` lives in
the library package `k8s.io/kubectl/pkg/cmd/apply`, outside `controllers/kube.go`;
it is the fixed field-manager identity under which this controller writes. -/
def FieldManagerClientSideApply : String := "kubectl-client-side-apply"

/-- The error `meta.Accessor` returns for an object without object metadata. -/
def errNotObject : Error := { msg := "object does not implement the Object interfaces" }

/-- Modelled from the spec: `meta.Accessor` lives in the library package
`k8s.io/apimachinery/pkg/api/meta`, outside `controllers/kube.go`.  It returns the
metadata accessor of an object that has one, and otherwise a nil accessor together
with an error. -/
def Accessor (obj : RuntimeObject) : Option ObjectMeta × Option Error :=
  match obj with
  | none => (none, some errNotObject)
  | some d =>
    match d.metadata with
    | some m => (some m, none)
    | none => (none, some errNotObject)

/-- Modelled from the spec: `(*resource.Info).Refresh` lives in the library package
`k8s.io/cli-runtime/pkg/resource`, outside `controllers/kube.go`.  It makes `obj` the
object of the info, and copies the name, the namespace (of a namespaced info) and
the resource version from it when `obj` has metadata; a failed metadata lookup is
an error unless `ignoreError` is set. -/
def Info.Refresh (i : Info) (obj : RuntimeObject) (ignoreError : Bool) : Info × Option Error :=
  match Accessor obj with
  | (some m, _) =>
    ({ Namespaced := i.Namespaced,
       Namespace := if i.Namespaced then m.Namespace else i.Namespace,
       Name := m.Name, Object := obj, ResourceVersion := m.ResourceVersion }, none)
  | (none, err) =>
    if ignoreError then ({ i with Object := obj }, none) else (i, err)

/-- Modelled from the spec: `resource.NewHelper` and the builder methods `DryRun` and
`WithFieldManager` live in the library package `k8s.io/cli-runtime/pkg/resource`,
outside `controllers/kube.go`.  A new helper has dry-run off and no field manager. -/
def NewHelper : Helper := { ServerDryRun := false, FieldManager := "" }

/-- The builder method `(*Helper).DryRun`. -/
def Helper.DryRun (m : Helper) (dryRun : Bool) : Helper := { m with ServerDryRun := dryRun }

/-- The builder method `(*Helper).WithFieldManager`. -/
def Helper.WithFieldManager (m : Helper) (fieldManager : String) : Helper :=
  { m with FieldManager := fieldManager }

/-- The call `helper.Patch(ns, name, pt, data, &options)` as a patch request. -/
def Helper.patchRequest (m : Helper) (ns name : String) (pt : PatchType)
    (data : Bytes) (options : PatchOptions) : PatchRequest :=
  { Helper := m, Namespace := ns, Name := name, PatchType := pt, Data := data,
    Options := options }

/-- The formatted error of line 43 of `kube.go`. -/
def generateNameError (generatedName : String) : Error :=
  { msg := "from " ++ generatedName ++ ": cannot use generate name with apply" }

/-- What a call of `applyOneObject` leaves behind: how it ended, the `*resource.Info`
it was given (mutated in place in Go), the state of the store, and the events. -/
structure ApplyResult (σ : Type) where
  outcome : Outcome
  info : Info
  store : σ
  events : List Event

/-- The patch request that `applyOneObject` builds for `info` once the object is
encoded as `data` (`kube.go`, lines 47-49 and 57-68). -/
def applyRequest (info : Info) (data : Bytes) : PatchRequest :=
  let helper := (NewHelper.DryRun false).WithFieldManager FieldManagerClientSideApply
  let forceConflicts := true
  let options : PatchOptions :=
    { DryRun := [], Force := some forceConflicts, FieldManager := "" }
  helper.patchRequest info.Namespace info.Name PatchType.ApplyPatchType data options

/-- The name check of `applyOneObject` (`kube.go`, lines 39-45): `some` is the way the
call ends right there, `none` means it goes on.  `metadata.GetGenerateName()` on a
nil `metadata` is a nil dereference: the error of `meta.Accessor` is discarded. -/
def nameCheck (info : Info) : Option Outcome :=
  if info.Name.length = 0 then
    match (Accessor info.Object).1 with
    | none => some (Outcome.panicked "invalid memory address or nil pointer dereference")
    | some metadata =>
      let generatedName := metadata.GenerateName
      if generatedName.length > 0 then
        some (Outcome.returned (some (generateNameError generatedName)))
      else none
  else none

/-- The function `applyOneObject` of `kube.go`, lines 38-75. -/
def applyOneObject {σ : Type} (env : Env σ) (st : σ) (info : Info) : ApplyResult σ :=
  match nameCheck info with
  | some out => { outcome := out, info := info, store := st, events := [] }
  | none =>
    match env.encode info.Object with
    | .error err =>
      { outcome := Outcome.returned (some err), info := info, store := st,
        events := [Event.encode info.Object] }
    | .ok data =>
      let req := applyRequest info data
      match env.patch st req with
      | (.error err, st1) =>
        { outcome := Outcome.returned (some err), info := info, store := st1,
          events := [Event.encode info.Object, Event.patch req] }
      | (.ok obj, st1) =>
        { outcome := Outcome.returned none, info := (info.Refresh obj true).1, store := st1,
          events := [Event.encode info.Object, Event.patch req] }

/-- The function `haveNamespace` of `kube.go`, lines 77-82: the result, the state of
the store after the lookup, and the events. -/
def haveNamespace {σ : Type} (env : Env σ) (st : σ) (name : String) : Bool × σ × List Event :=
  match env.getNamespace st name with
  | (.ok _, st1) => (true, st1, [Event.getNamespace name])
  | (.error _, st1) => (false, st1, [Event.getNamespace name])

/-- The error with which the request builder behind `(*resource.Helper).Patch`
refuses an empty resource name. -/
def errEmptyResourceName : Error := { msg := "resource name may not be empty" }

/-- Modelled from the spec: `(*resource.Helper).Patch` lives in the library package
`k8s.io/cli-runtime/pkg/resource`, outside `controllers/kube.go`.  An object without
a name cannot be the target of an apply: a patch call with an empty resource name is
refused with an error before anything is sent, so that the store stays as it was. -/
def RefusesEmptyName {σ : Type} (env : Env σ) : Prop :=
  ∀ (st : σ) (req : PatchRequest),
    req.Name = "" → env.patch st req = (.error errEmptyResourceName, st)

/-- The patch requests among the events, in order. -/
def patchRequests : List Event → List PatchRequest
  | [] => []
  | Event.patch req :: es => req :: patchRequests es
  | _ :: es => patchRequests es

/-! ## Concrete inputs -/

/-- A store that keeps the number of patch requests it has received and answers each
with the object `"stored"`, named as requested; a patch call without a resource name
is refused before it is sent.  A nil object encodes as JSON `null`.  The store knows
the namespace `"ns1"` only. -/
def countingEnv : Env Nat where
  encode := fun obj =>
    match obj with
    | none => .ok [110, 117, 108, 108, 10]
    | some d => .ok (d.payload.data.map Char.toNat)
  patch := fun n req =>
    if req.Name = "" then (.error errEmptyResourceName, n)
    else
      (.ok (some { metadata := some { Name := req.Name, GenerateName := "",
                                       Namespace := req.Namespace, ResourceVersion := "1",
                                       OwnerReferences := [] },
                   payload := "stored" }), n + 1)
  getNamespace := fun n name =>
    if name = "ns1" then
      (.ok { metadata := some { Name := name, GenerateName := "", Namespace := "",
                                ResourceVersion := "1", OwnerReferences := [] },
             payload := "" }, n)
    else (.error { msg := "namespace not found: " ++ name }, n)

/-- A store that answers every patch request it receives with a conflict; a patch
call without a resource name is refused before it is sent. -/
def failingEnv : Env Nat where
  encode := countingEnv.encode
  patch := fun n req =>
    if req.Name = "" then (.error errEmptyResourceName, n)
    else (.error { msg := "conflict" }, n + 1)
  getNamespace := fun n _ => (.error { msg := "connection refused" }, n)

/-- Metadata with the given name and generate name, in namespace `"ns1"`. -/
def metaNamed (name generateName : String) : ObjectMeta :=
  { Name := name, GenerateName := generateName, Namespace := "ns1", ResourceVersion := "",
    OwnerReferences := [] }

/-- A desired object with the given name and generate name. -/
def infoNamed (name generateName : String) : Info :=
  { Namespaced := true, Namespace := "ns1", Name := name,
    Object := some { metadata := some (metaNamed name generateName), payload := "spec" },
    ResourceVersion := "" }

/-- An info without a name whose object is nil. -/
def infoNilObject : Info :=
  { Namespaced := true, Namespace := "ns1", Name := "", Object := none,
    ResourceVersion := "" }

/-- An info without a name whose object exposes no object metadata. -/
def infoNoMeta : Info :=
  { Namespaced := true, Namespace := "ns1", Name := "",
    Object := some { metadata := none, payload := "items" }, ResourceVersion := "" }

/-- Metadata that carries the given owner references. -/
def metaOwned (refs : List OwnerReference) : ObjectMeta :=
  { Name := "foo", GenerateName := "", Namespace := "ns1", ResourceVersion := "",
    OwnerReferences := refs }

/-- The owner reference `apps/v1 Pattern parent1`. -/
def refParent1 : OwnerReference :=
  { APIVersion := "apps/v1", Kind := "Pattern", Name := "parent1", UID := "u1" }

/-- The owner reference `v1 Secret s1`. -/
def refSecret1 : OwnerReference :=
  { APIVersion := "v1", Kind := "Secret", Name := "s1", UID := "u2" }

/-! ## Lemmas on the ownership resolver -/

theorem ParseGroupVersion_of_count_zero (gv : String) (h : gv.data.count '/' = 0) :
    ∃ v, ParseGroupVersion gv = .ok { Group := "", Version := v } := by
  unfold ParseGroupVersion
  split
  · exact ⟨"", rfl⟩
  · rw [h]; exact ⟨gv, rfl⟩

theorem indexOf_append_cons (pre post : List Char) (c : Char) (h : c ∉ pre) :
    (pre ++ c :: post).indexOf c = pre.length := by
  induction pre with
  | nil => simp
  | cons d ds ih =>
    have hd : ¬ d = c := fun hdc => h (by simp [hdc])
    have hds : c ∉ ds := fun hm => h (by simp [hm])
    simp [List.indexOf_cons, hd, ih hds]

theorem ParseGroupVersion_of_one_slash (gv : String) (pre post : List Char)
    (hgv : gv.data = pre ++ '/' :: post) (hpre : '/' ∉ pre) (hpost : '/' ∉ post) :
    ∃ v, ParseGroupVersion gv = .ok { Group := String.mk pre, Version := v } := by
  have hcount : gv.data.count '/' = 1 := by
    rw [hgv, List.count_append, List.count_cons_self, List.count_eq_zero_of_not_mem hpre,
      List.count_eq_zero_of_not_mem hpost]
  unfold ParseGroupVersion
  split
  · rename_i hsp
    rcases hsp with hlen | hsl
    · have : gv.data.length = 0 := hlen
      rw [hgv] at this
      simp at this
    · subst hsl
      have h1 : pre = [] := by
        cases pre with
        | nil => rfl
        | cons d ds =>
          have := congrArg List.length hgv
          simp at this
      subst h1
      exact ⟨"", rfl⟩
  · rw [hcount]
    simp only []
    rw [hgv, indexOf_append_cons pre post '/' hpre]
    simp

theorem ParseGroupVersion_of_two_le (gv : String) (h : 2 ≤ gv.data.count '/') :
    ∃ e, ParseGroupVersion gv = .error e := by
  unfold ParseGroupVersion
  split
  · rename_i hsp
    exfalso
    rcases hsp with hlen | hsl
    · have h0 : gv.data = [] := List.length_eq_zero.mp hlen
      rw [h0] at h
      simp at h
    · subst hsl
      revert h
      decide
  · split
    · rename_i h0; omega
    · rename_i h1; omega
    · exact ⟨_, rfl⟩

theorem referSameObject_iff (a b : OwnerReference) :
    referSameObject a b = true ↔
      ∃ ga gb, ParseGroupVersion a.APIVersion = .ok ga ∧
        ParseGroupVersion b.APIVersion = .ok gb ∧
        ga.Group = gb.Group ∧ a.Kind = b.Kind ∧ a.Name = b.Name := by
  unfold referSameObject
  cases ha : ParseGroupVersion a.APIVersion with
  | error e => simp
  | ok ga =>
    cases hb : ParseGroupVersion b.APIVersion with
    | error e => simp
    | ok gb => simp [and_assoc]

theorem referSameObject_eq_of_parsedGroup (a b a' b' : OwnerReference)
    (ha : parsedGroup a.APIVersion = parsedGroup a'.APIVersion)
    (hak : a.Kind = a'.Kind) (han : a.Name = a'.Name)
    (hb : parsedGroup b.APIVersion = parsedGroup b'.APIVersion)
    (hbk : b.Kind = b'.Kind) (hbn : b.Name = b'.Name) :
    referSameObject a b = referSameObject a' b' := by
  unfold parsedGroup at ha hb
  unfold referSameObject
  cases h1 : ParseGroupVersion a.APIVersion <;> cases h2 : ParseGroupVersion a'.APIVersion <;>
    cases h3 : ParseGroupVersion b.APIVersion <;> cases h4 : ParseGroupVersion b'.APIVersion <;>
    simp_all

theorem ownedByLoop_iff (ref : OwnerReference) (l : List OwnerReference) :
    ownedByLoop ref l = true ↔ ∃ s ∈ l, referSameObject s ref = true := by
  induction l with
  | nil => simp [ownedByLoop]
  | cons r rs ih =>
    unfold ownedByLoop
    by_cases h : referSameObject r ref = true
    · simp [h]
    · simp [h, ih]

theorem ownedBy_iff (object : ObjectMeta) (ref : OwnerReference) :
    ownedBy object ref = true ↔
      ∃ s ∈ object.OwnerReferences, referSameObject s ref = true :=
  ownedByLoop_iff ref object.OwnerReferences

theorem ownedBySameLoop_iff (object : ObjectMeta) (l : List OwnerReference) :
    ownedBySameLoop object l = true ↔ ∀ r ∈ l, ownedBy object r = true := by
  induction l with
  | nil => simp [ownedBySameLoop]
  | cons r rs ih =>
    unfold ownedBySameLoop
    by_cases h : ownedBy object r = true
    · simp [h, ih]
    · simp [h]

theorem ownedBySame_iff (expected object : ObjectMeta) :
    ownedBySame expected object = true ↔
      ∀ r ∈ expected.OwnerReferences,
        ∃ s ∈ object.OwnerReferences, referSameObject s r = true := by
  unfold ownedBySame
  rw [ownedBySameLoop_iff]
  constructor
  · intro h r hr
    exact (ownedBy_iff object r).mp (h r hr)
  · intro h r hr
    exact (ownedBy_iff object r).mpr (h r hr)

theorem length_eq_zero_iff (s : String) : s.length = 0 ↔ s = "" := by
  constructor
  · intro h
    have hd : s.data = [] := List.length_eq_zero.mp h
    exact String.ext hd
  · intro h
    subst h
    rfl

theorem nameCheck_of_name (info : Info) (h : info.Name ≠ "") : nameCheck info = none := by
  unfold nameCheck
  have hl : ¬ info.Name.length = 0 := fun hz => h ((length_eq_zero_iff _).mp hz)
  simp [hl]

theorem nameCheck_of_no_generateName (info : Info) (m : ObjectMeta)
    (hm : (Accessor info.Object).1 = some m) (hg : m.GenerateName = "") :
    nameCheck info = none := by
  unfold nameCheck
  split
  · rw [hm]
    simp [hg]
  · rfl

theorem nameCheck_passes (info : Info)
    (h : info.Name ≠ "" ∨ ∃ m, (Accessor info.Object).1 = some m ∧ m.GenerateName = "") :
    nameCheck info = none := by
  rcases h with h | ⟨m, hm, hg⟩
  · exact nameCheck_of_name info h
  · exact nameCheck_of_no_generateName info m hm hg

theorem applyRequest_eq (info : Info) (data : Bytes) :
    applyRequest info data =
      { Helper := { ServerDryRun := false, FieldManager := FieldManagerClientSideApply },
        Namespace := info.Namespace, Name := info.Name,
        PatchType := PatchType.ApplyPatchType, Data := data,
        Options := { DryRun := [], Force := some true, FieldManager := "" } } := by
  rfl

theorem Refresh_object (i : Info) (obj : RuntimeObject) : (i.Refresh obj true).1.Object = obj := by
  unfold Info.Refresh
  split <;> simp

theorem applyOneObject_of_patch_error {σ : Type} (env : Env σ) (st st1 : σ) (info : Info)
    (data : Bytes) (e : Error) (hcheck : nameCheck info = none)
    (henc : env.encode info.Object = .ok data)
    (hpatch : env.patch st (applyRequest info data) = (.error e, st1)) :
    applyOneObject env st info =
      { outcome := Outcome.returned (some e), info := info, store := st1,
        events := [Event.encode info.Object, Event.patch (applyRequest info data)] } := by
  unfold applyOneObject
  simp only [hcheck, henc, hpatch]

theorem applyOneObject_of_patch_ok {σ : Type} (env : Env σ) (st st1 : σ) (info : Info)
    (data : Bytes) (obj : RuntimeObject) (hcheck : nameCheck info = none)
    (henc : env.encode info.Object = .ok data)
    (hpatch : env.patch st (applyRequest info data) = (.ok obj, st1)) :
    applyOneObject env st info =
      { outcome := Outcome.returned none, info := (info.Refresh obj true).1, store := st1,
        events := [Event.encode info.Object, Event.patch (applyRequest info data)] } := by
  unfold applyOneObject
  simp only [hcheck, henc, hpatch]

theorem applyOneObject_of_encode_error {σ : Type} (env : Env σ) (st : σ) (info : Info)
    (err : Error) (hcheck : nameCheck info = none)
    (henc : env.encode info.Object = .error err) :
    applyOneObject env st info =
      { outcome := Outcome.returned (some err), info := info, store := st,
        events := [Event.encode info.Object] } := by
  unfold applyOneObject
  simp only [hcheck, henc]

/-! ## Ownership resolver: the claims -/

/-- C1: `ownedBySame expected observed` is true exactly when every owner reference
`r` of `expected` has an owner reference `s` of `observed` with
`referSameObject s r`; `ownedBy observed r` is that existence test.  The check is
one-directional: it holds when `expected` has no owner references, and `observed`
may carry references that `expected` lacks, as in scenario C of the specification,
while the same pair the other way round is rejected. -/
theorem ownedBySame_contract :
    (∀ expected observed : ObjectMeta,
      ownedBySame expected observed = true ↔
        ∀ r ∈ expected.OwnerReferences,
          ∃ s ∈ observed.OwnerReferences, referSameObject s r = true) ∧
    (∀ (observed : ObjectMeta) (r : OwnerReference),
      ownedBy observed r = true ↔
        ∃ s ∈ observed.OwnerReferences, referSameObject s r = true) ∧
    (∀ expected observed : ObjectMeta,
      ownedBySame expected observed = true ↔
        ∀ r ∈ expected.OwnerReferences, ownedBy observed r = true) ∧
    (∀ expected observed : ObjectMeta,
      expected.OwnerReferences = [] → ownedBySame expected observed = true) ∧
    ownedBySame (metaOwned [refParent1]) (metaOwned [refParent1, refSecret1]) = true ∧
    ownedBySame (metaOwned [refParent1, refSecret1]) (metaOwned [refParent1]) = false := by
  refine ⟨ownedBySame_iff, ownedBy_iff, ?_, ?_, by decide, by decide⟩
  · intro expected observed
    exact ownedBySameLoop_iff observed expected.OwnerReferences
  · intro expected observed h
    rw [ownedBySame_iff, h]
    intro r hr
    cases hr

/-- C2: `referSameObject a b` is true exactly when both `APIVersion`s parse, the
parsed groups are equal, and kind and name are equal.  The parse gives the empty
group for the empty string, for `"/"` and for a string without `'/'`, the text
before the `'/'` for a string with exactly one, and fails for two or more.  The
result depends on the two references only through parsed group, kind and name, so
neither the version part nor the UID enters it; when either side fails to parse
the result is false, also for a reference compared with itself. -/
theorem referSameObject_contract :
    (∀ a b : OwnerReference,
      referSameObject a b = true ↔
        ∃ ga gb, ParseGroupVersion a.APIVersion = .ok ga ∧
          ParseGroupVersion b.APIVersion = .ok gb ∧
          ga.Group = gb.Group ∧ a.Kind = b.Kind ∧ a.Name = b.Name) ∧
    (∃ v, ParseGroupVersion "" = .ok { Group := "", Version := v }) ∧
    (∃ v, ParseGroupVersion "/" = .ok { Group := "", Version := v }) ∧
    (∀ gv : String, gv.data.count '/' = 0 →
      ∃ v, ParseGroupVersion gv = .ok { Group := "", Version := v }) ∧
    (∀ (gv : String) (pre post : List Char),
      gv.data = pre ++ '/' :: post → '/' ∉ pre → '/' ∉ post →
        ∃ v, ParseGroupVersion gv = .ok { Group := String.mk pre, Version := v }) ∧
    (∀ gv : String, 2 ≤ gv.data.count '/' → ∃ e, ParseGroupVersion gv = .error e) ∧
    (∀ a b a' b' : OwnerReference,
      parsedGroup a.APIVersion = parsedGroup a'.APIVersion → a.Kind = a'.Kind →
      a.Name = a'.Name →
      parsedGroup b.APIVersion = parsedGroup b'.APIVersion → b.Kind = b'.Kind →
      b.Name = b'.Name →
        referSameObject a b = referSameObject a' b') ∧
    (∀ (a b : OwnerReference) (g v w : List Char), '/' ∉ g → '/' ∉ v → '/' ∉ w →
      referSameObject { a with APIVersion := String.mk (g ++ '/' :: v) } b =
        referSameObject { a with APIVersion := String.mk (g ++ '/' :: w) } b ∧
      referSameObject b { a with APIVersion := String.mk (g ++ '/' :: v) } =
        referSameObject b { a with APIVersion := String.mk (g ++ '/' :: w) }) ∧
    (∀ (a b : OwnerReference) (u w : String),
      referSameObject { a with UID := u } { b with UID := w } = referSameObject a b) ∧
    (∀ a b : OwnerReference,
      (∃ e, ParseGroupVersion a.APIVersion = .error e) ∨
        (∃ e, ParseGroupVersion b.APIVersion = .error e) →
        referSameObject a b = false) ∧
    (∀ a : OwnerReference, 2 ≤ a.APIVersion.data.count '/' → referSameObject a a = false) := by
  have hfail : ∀ a b : OwnerReference,
      (∃ e, ParseGroupVersion a.APIVersion = .error e) ∨
        (∃ e, ParseGroupVersion b.APIVersion = .error e) →
        referSameObject a b = false := by
    intro a b h
    unfold referSameObject
    rcases h with ⟨e, he⟩ | ⟨e, he⟩
    · rw [he]
    · rw [he]
      cases ParseGroupVersion a.APIVersion <;> rfl
  have hgroup : ∀ g v w : List Char, '/' ∉ g → '/' ∉ v → '/' ∉ w →
      parsedGroup (String.mk (g ++ '/' :: v)) = parsedGroup (String.mk (g ++ '/' :: w)) := by
    intro g v w hg hv hw
    obtain ⟨x, hx⟩ := ParseGroupVersion_of_one_slash (String.mk (g ++ '/' :: v)) g v rfl hg hv
    obtain ⟨y, hy⟩ := ParseGroupVersion_of_one_slash (String.mk (g ++ '/' :: w)) g w rfl hg hw
    unfold parsedGroup
    rw [hx, hy]
  refine ⟨referSameObject_iff, ⟨"", rfl⟩, ⟨"", rfl⟩, ParseGroupVersion_of_count_zero,
    ParseGroupVersion_of_one_slash, ParseGroupVersion_of_two_le,
    referSameObject_eq_of_parsedGroup, ?_, ?_, hfail, ?_⟩
  · intro a b g v w hg hv hw
    constructor
    · exact referSameObject_eq_of_parsedGroup _ _ _ _ (hgroup g v w hg hv hw) rfl rfl rfl rfl rfl
    · exact referSameObject_eq_of_parsedGroup _ _ _ _ rfl rfl rfl (hgroup g v w hg hv hw) rfl rfl
  · intro a b u w
    exact referSameObject_eq_of_parsedGroup _ _ _ _ rfl rfl rfl rfl rfl rfl
  · intro a h
    exact hfail a a (Or.inl (ParseGroupVersion_of_two_le _ h))

/-- C2, at concrete references: `apps/v1` and `apps/v2` give the same result against
`apps/v1 Pattern parent1`, and `a/b/c` does not parse, so a reference that carries
it is not even the same as itself. -/
theorem referSameObject_contract_witness :
    referSameObject { refParent1 with APIVersion := String.mk ("apps".data ++ '/' :: "v1".data) }
        refParent1 =
      referSameObject { refParent1 with APIVersion := String.mk ("apps".data ++ '/' :: "v2".data) }
        refParent1 ∧
    referSameObject { refParent1 with APIVersion := "a/b/c" }
        { refParent1 with APIVersion := "a/b/c" } = false :=
  ⟨(referSameObject_contract.2.2.2.2.2.2.2.1 refParent1 refParent1 "apps".data "v1".data
      "v2".data (by decide) (by decide) (by decide)).1,
    referSameObject_contract.2.2.2.2.2.2.2.2.2.2 { refParent1 with APIVersion := "a/b/c" }
      (by decide)⟩

/-- C7: if `ownedBySame e o` is true it stays true when an owner reference `x` is
inserted at any position of the owner references of `o`, and if it is false it
stays false when any one owner reference of `o` is removed. -/
theorem ownedBySame_monotone (e o : ObjectMeta) (x : OwnerReference) :
    (ownedBySame e o = true →
      ∀ i : Nat,
        ownedBySame e
          { o with OwnerReferences :=
              o.OwnerReferences.take i ++ x :: o.OwnerReferences.drop i } = true) ∧
    (ownedBySame e o = false →
      ∀ i : Nat,
        ownedBySame e { o with OwnerReferences := o.OwnerReferences.eraseIdx i } = false) := by
  constructor
  · intro h i
    rw [ownedBySame_iff] at h ⊢
    intro r hr
    obtain ⟨s, hs, hsr⟩ := h r hr
    refine ⟨s, ?_, hsr⟩
    have hmem : s ∈ o.OwnerReferences.take i ++ o.OwnerReferences.drop i := by
      rw [List.take_append_drop]; exact hs
    simp only [List.mem_append, List.mem_cons] at hmem ⊢
    rcases hmem with hm | hm
    · exact Or.inl hm
    · exact Or.inr (Or.inr hm)
  · intro h i
    cases hres : ownedBySame e { o with OwnerReferences := o.OwnerReferences.eraseIdx i } with
    | false => rfl
    | true =>
      exfalso
      rw [ownedBySame_iff] at hres
      have htrue : ownedBySame e o = true := by
        rw [ownedBySame_iff]
        intro r hr
        obtain ⟨s, hs, hsr⟩ := hres r hr
        exact ⟨s, List.mem_of_mem_eraseIdx hs, hsr⟩
      rw [h] at htrue
      cases htrue

/-- C7, at concrete objects: inserting `v1 Secret s1` in front of the only
reference of an accepted object keeps it accepted, and removing the only reference
of a rejected object keeps it rejected. -/
theorem ownedBySame_monotone_witness :
    ownedBySame (metaOwned [refParent1]) (metaOwned [refSecret1, refParent1]) = true ∧
      ownedBySame (metaOwned [refParent1]) (metaOwned []) = false :=
  ⟨(ownedBySame_monotone (metaOwned [refParent1]) (metaOwned [refParent1]) refSecret1).1
      (by decide) 0,
    (ownedBySame_monotone (metaOwned [refParent1]) (metaOwned [refSecret1]) refSecret1).2
      (by decide) 0⟩

theorem countingEnv_refuses : RefusesEmptyName countingEnv := by
  intro st req h
  simp [countingEnv, h]

theorem failingEnv_refuses : RefusesEmptyName failingEnv := by
  intro st req h
  simp [failingEnv, h]

/-! ## Apply engine and namespace gate: the claims -/

/-- C3: for a desired object whose name is empty and whose generate name is not,
`applyOneObject` returns the generate-name error and does nothing else: the object
is not encoded, no patch request is issued (the event log is empty, the store is
untouched) and the info is as it was. -/
theorem applyOneObject_rejects_generateName {σ : Type} (env : Env σ) (st : σ) (info : Info)
    (m : ObjectMeta) (hname : info.Name = "") (hmeta : (Accessor info.Object).1 = some m)
    (hgen : m.GenerateName ≠ "") :
    (applyOneObject env st info).outcome =
        Outcome.returned (some (generateNameError m.GenerateName)) ∧
      (applyOneObject env st info).events = [] ∧
      patchRequests (applyOneObject env st info).events = [] ∧
      (applyOneObject env st info).info = info ∧
      (applyOneObject env st info).store = st := by
  have hlen : 0 < m.GenerateName.length := by
    rcases Nat.eq_zero_or_pos m.GenerateName.length with h0 | hpos
    · exact absurd ((length_eq_zero_iff _).mp h0) hgen
    · exact hpos
  have hcheck : nameCheck info =
      some (Outcome.returned (some (generateNameError m.GenerateName))) := by
    unfold nameCheck
    rw [hname, hmeta]
    simp [hlen]
  have happ : applyOneObject env st info =
      { outcome := Outcome.returned (some (generateNameError m.GenerateName)), info := info,
        store := st, events := [] } := by
    unfold applyOneObject
    simp only [hcheck]
  rw [happ]
  exact ⟨rfl, rfl, rfl, rfl, rfl⟩

/-- C3, at the unnamed object with generate name `gen-` and the counting store. -/
theorem applyOneObject_rejects_generateName_witness :
    (applyOneObject countingEnv 0 (infoNamed "" "gen-")).outcome =
        Outcome.returned (some (generateNameError "gen-")) ∧
      (applyOneObject countingEnv 0 (infoNamed "" "gen-")).events = [] ∧
      patchRequests (applyOneObject countingEnv 0 (infoNamed "" "gen-")).events = [] ∧
      (applyOneObject countingEnv 0 (infoNamed "" "gen-")).info = infoNamed "" "gen-" ∧
      (applyOneObject countingEnv 0 (infoNamed "" "gen-")).store = 0 :=
  applyOneObject_rejects_generateName countingEnv 0 (infoNamed "" "gen-") (metaNamed "" "gen-")
    rfl rfl (by decide)

/-- C4: for a desired object that passes the name check and encodes to `data`, if
the patch call of the store fails with `e`, then `applyOneObject` returns exactly
`e`, has issued exactly one patch request, and leaves the info as it was. -/
theorem applyOneObject_store_error {σ : Type} (env : Env σ) (st st1 : σ) (info : Info)
    (data : Bytes) (e : Error)
    (hcheck : info.Name ≠ "" ∨ ∃ m, (Accessor info.Object).1 = some m ∧ m.GenerateName = "")
    (henc : env.encode info.Object = .ok data)
    (hpatch : env.patch st (applyRequest info data) = (.error e, st1)) :
    (applyOneObject env st info).outcome = Outcome.returned (some e) ∧
      patchRequests (applyOneObject env st info).events = [applyRequest info data] ∧
      (applyOneObject env st info).events =
        [Event.encode info.Object, Event.patch (applyRequest info data)] ∧
      (applyOneObject env st info).info = info ∧
      (applyOneObject env st info).store = st1 := by
  rw [applyOneObject_of_patch_error env st st1 info data e (nameCheck_passes info hcheck)
    henc hpatch]
  exact ⟨rfl, rfl, rfl, rfl, rfl⟩

/-- C4, at the object `foo` and the store that answers every patch with a conflict. -/
theorem applyOneObject_store_error_witness :
    (applyOneObject failingEnv 0 (infoNamed "foo" "")).outcome =
        Outcome.returned (some { msg := "conflict" }) ∧
      patchRequests (applyOneObject failingEnv 0 (infoNamed "foo" "")).events =
        [applyRequest (infoNamed "foo" "") [115, 112, 101, 99]] ∧
      (applyOneObject failingEnv 0 (infoNamed "foo" "")).events =
        [Event.encode (infoNamed "foo" "").Object,
          Event.patch (applyRequest (infoNamed "foo" "") [115, 112, 101, 99])] ∧
      (applyOneObject failingEnv 0 (infoNamed "foo" "")).info = infoNamed "foo" "" ∧
      (applyOneObject failingEnv 0 (infoNamed "foo" "")).store = 1 :=
  applyOneObject_store_error failingEnv 0 1 (infoNamed "foo" "") [115, 112, 101, 99]
    { msg := "conflict" } (Or.inl (by decide)) rfl rfl

/-- C5: for a desired object with a non-empty name that encodes to `data` and whose
patch call succeeds with the server object `obj`, `applyOneObject` issues exactly one
patch request; it is addressed to `(info.Namespace, info.Name)`, is of the
server-side-apply patch type, carries `data` as body, is forced, and bears the fixed
field-manager identity; the object of the info becomes `obj` and the result is nil. -/
theorem applyOneObject_success {σ : Type} (env : Env σ) (st st1 : σ) (info : Info)
    (data : Bytes) (obj : RuntimeObject) (hname : info.Name ≠ "")
    (henc : env.encode info.Object = .ok data)
    (hpatch : env.patch st (applyRequest info data) = (.ok obj, st1)) :
    patchRequests (applyOneObject env st info).events = [applyRequest info data] ∧
      applyRequest info data =
        { Helper := { ServerDryRun := false, FieldManager := FieldManagerClientSideApply },
          Namespace := info.Namespace, Name := info.Name,
          PatchType := PatchType.ApplyPatchType, Data := data,
          Options := { DryRun := [], Force := some true, FieldManager := "" } } ∧
      (applyOneObject env st info).events =
        [Event.encode info.Object, Event.patch (applyRequest info data)] ∧
      (applyOneObject env st info).info = (info.Refresh obj true).1 ∧
      (applyOneObject env st info).info.Object = obj ∧
      (applyOneObject env st info).outcome = Outcome.returned none ∧
      (applyOneObject env st info).store = st1 := by
  rw [applyOneObject_of_patch_ok env st st1 info data obj (nameCheck_of_name info hname)
    henc hpatch]
  exact ⟨rfl, applyRequest_eq info data, rfl, rfl, Refresh_object info obj, rfl, rfl⟩

/-- C5, at the object `foo` and the counting store. -/
theorem applyOneObject_success_witness :
    patchRequests (applyOneObject countingEnv 0 (infoNamed "foo" "")).events =
        [applyRequest (infoNamed "foo" "") [115, 112, 101, 99]] ∧
      applyRequest (infoNamed "foo" "") [115, 112, 101, 99] =
        { Helper := { ServerDryRun := false, FieldManager := FieldManagerClientSideApply },
          Namespace := "ns1", Name := "foo", PatchType := PatchType.ApplyPatchType,
          Data := [115, 112, 101, 99],
          Options := { DryRun := [], Force := some true, FieldManager := "" } } ∧
      (applyOneObject countingEnv 0 (infoNamed "foo" "")).info.Object =
        some { metadata := some { Name := "foo", GenerateName := "", Namespace := "ns1",
                                  ResourceVersion := "1", OwnerReferences := [] },
               payload := "stored" } ∧
      (applyOneObject countingEnv 0 (infoNamed "foo" "")).outcome = Outcome.returned none :=
  have h := applyOneObject_success countingEnv 0 1 (infoNamed "foo" "") [115, 112, 101, 99]
    (some { metadata := some { Name := "foo", GenerateName := "", Namespace := "ns1",
                               ResourceVersion := "1", OwnerReferences := [] },
            payload := "stored" })
    (by decide) rfl rfl
  ⟨h.1, h.2.1, h.2.2.2.2.1, h.2.2.2.2.2.1⟩

/-- C6: a desired object with empty name and empty generate name is not made the
target of an apply.  The name check lets it through, and the patch call that follows
an encoding carries the empty resource name, which the helper refuses before anything
is sent: `applyOneObject` returns an error (that refusal, or the encoding error when
the encoding fails), the store is as it was, and the info is not refreshed. -/
theorem applyOneObject_unnamed_refused {σ : Type} (env : Env σ) (st : σ) (info : Info)
    (m : ObjectMeta) (hname : info.Name = "") (hmeta : (Accessor info.Object).1 = some m)
    (hgen : m.GenerateName = "") (hrefuse : RefusesEmptyName env) :
    (∃ e, (applyOneObject env st info).outcome = Outcome.returned (some e)) ∧
      (applyOneObject env st info).store = st ∧
      (applyOneObject env st info).info = info ∧
      (∀ data, env.encode info.Object = .ok data →
        (applyOneObject env st info).outcome =
          Outcome.returned (some errEmptyResourceName)) ∧
      (∀ err, env.encode info.Object = .error err →
        (applyOneObject env st info).outcome = Outcome.returned (some err) ∧
          patchRequests (applyOneObject env st info).events = []) := by
  have hcheck : nameCheck info = none := nameCheck_of_no_generateName info m hmeta hgen
  have hreqname : ∀ data, (applyRequest info data).Name = "" := by
    intro data
    rw [applyRequest_eq]
    exact hname
  cases henc : env.encode info.Object with
  | error err =>
    rw [applyOneObject_of_encode_error env st info err hcheck henc]
    refine ⟨⟨err, rfl⟩, rfl, rfl, ?_, ?_⟩
    · intro data h
      cases h
    · intro err1 h
      cases h
      exact ⟨rfl, rfl⟩
  | ok data =>
    have hp := hrefuse st (applyRequest info data) (hreqname data)
    rw [applyOneObject_of_patch_error env st st info data errEmptyResourceName hcheck henc hp]
    refine ⟨⟨errEmptyResourceName, rfl⟩, rfl, rfl, ?_, ?_⟩
    · intro data1 _
      rfl
    · intro err h
      cases h

/-- C6, at the unnamed object without generate name and the counting store: the
refusal comes back, the store has received no request, the info is as before. -/
theorem applyOneObject_unnamed_refused_witness :
    (applyOneObject countingEnv 0 (infoNamed "" "")).outcome =
        Outcome.returned (some errEmptyResourceName) ∧
      (applyOneObject countingEnv 0 (infoNamed "" "")).store = 0 ∧
      (applyOneObject countingEnv 0 (infoNamed "" "")).info = infoNamed "" "" :=
  have h := applyOneObject_unnamed_refused countingEnv 0 (infoNamed "" "") (metaNamed "" "")
    rfl rfl rfl countingEnv_refuses
  ⟨h.2.2.2.1 [115, 112, 101, 99] rfl, h.2.1, h.2.2.1⟩

/-- C8: `haveNamespace` performs exactly one lookup, of the namespace asked for, and
its result is true exactly when that lookup returned without error; whatever the
error of a failed lookup is (not found, forbidden, transport), the result is false.
The result is a plain boolean, so no error reaches the caller. -/
theorem haveNamespace_contract {σ : Type} (env : Env σ) (st : σ) (name : String) :
    (haveNamespace env st name).2.2 = [Event.getNamespace name] ∧
      (haveNamespace env st name).2.1 = (env.getNamespace st name).2 ∧
      ((haveNamespace env st name).1 = true ↔
        ∃ ns, (env.getNamespace st name).1 = .ok ns) ∧
      (∀ e, (env.getNamespace st name).1 = .error e →
        (haveNamespace env st name).1 = false) := by
  unfold haveNamespace
  cases h : env.getNamespace st name with
  | mk res st1 =>
    cases res with
    | error e => simp
    | ok ns => simp

/-- C8, at the counting store: `ns1` is found, `ns2` is not. -/
theorem haveNamespace_contract_witness :
    (haveNamespace countingEnv 0 "ns1").1 = true ∧
      (haveNamespace countingEnv 0 "ns2").1 = false ∧
      (haveNamespace failingEnv 0 "ns1").1 = false :=
  ⟨(haveNamespace_contract countingEnv 0 "ns1").2.2.1.mpr ⟨_, rfl⟩,
    (haveNamespace_contract countingEnv 0 "ns2").2.2.2 _ rfl,
    (haveNamespace_contract failingEnv 0 "ns1").2.2.2 _ rfl⟩

/-- C10 fails on the code: with an empty `info.Name` and an object that is nil or
exposes no object metadata, the error of `meta.Accessor` is discarded and the nil
accessor is dereferenced, so `applyOneObject` panics, whatever the store. -/
theorem applyOneObject_panics_without_metadata {σ : Type} (env : Env σ) (st : σ) :
    (Accessor infoNilObject.Object).2 = some errNotObject ∧
      (Accessor infoNoMeta.Object).2 = some errNotObject ∧
      (applyOneObject env st infoNilObject).outcome =
        Outcome.panicked "invalid memory address or nil pointer dereference" ∧
      (applyOneObject env st infoNoMeta).outcome =
        Outcome.panicked "invalid memory address or nil pointer dereference" ∧
      (∀ err, (applyOneObject env st infoNilObject).outcome ≠ Outcome.returned err) ∧
      (∀ err, (applyOneObject env st infoNoMeta).outcome ≠ Outcome.returned err) := by
  have h1 : (applyOneObject env st infoNilObject).outcome =
      Outcome.panicked "invalid memory address or nil pointer dereference" := rfl
  have h2 : (applyOneObject env st infoNoMeta).outcome =
      Outcome.panicked "invalid memory address or nil pointer dereference" := rfl
  refine ⟨rfl, rfl, h1, h2, ?_, ?_⟩
  · intro err h
    rw [h1] at h
    cases h
  · intro err h
    rw [h2] at h
    cases h

end PatternsOperator
